import Mathlib

/-!
# The "System logs" dialog of Stella (src/gui/LoggerDialog.cxx)

A shallow embedding of `LoggerDialog`: its constructor's dropdown entries,
`loadConfig`, `saveConfig`, `saveLogFile` and `handleCommand`, as pure
functions on an explicit application state.  The collaborators the dialog
talks to (Logger, Settings, Variant, the widgets, StringParser, the file
stream) live in other files of the repository; each is given a small model
below, marked as such.
-/

namespace Stella

/-! ## Collaborators -/

namespace Logger

/-- Modelled from the spec: the enumeration Logger::Level (Logger.hxx is not
among the sources).  The spec names three severities, ordered
error-only < info < debug. -/
inductive Level
  | ERR
  | INFO
  | DEBUG
deriving DecidableEq, Repr

/-- Modelled from the spec: the integer behind a Logger::Level, as
static_cast<int> yields it; the three severities are numbered in their
order, error-only < info < debug. -/
def Level.toInt : Level → Int
  | .ERR => 0
  | .INFO => 1
  | .DEBUG => 2

end Logger

/-- Modelled from the spec: Variant (Variant.hxx is not among the sources), the
value type of dropdown tags and of settings.  The spec has the log level
fetched "as a string" and stored as "string or integer": a Variant keeps its
value as text. -/
structure Variant where
  data : String
deriving DecidableEq, Repr

namespace Variant

/-- Modelled from the spec: Variant(int), the integer kept as decimal text. -/
def ofInt (i : Int) : Variant := ⟨ToString.toString i⟩

/-- Modelled from the spec: Variant(bool), kept as "1" or "0". -/
def ofBool (b : Bool) : Variant := ⟨if b then "1" else "0"⟩

/-- Modelled from the spec: Variant(const string&). -/
def ofString (s : String) : Variant := ⟨s⟩

/-- Modelled from the spec: Variant::toString. -/
def toString (v : Variant) : String := v.data

/-- Modelled from the spec: value of the leading decimal digits of a text. -/
def readDigits : List Char → Nat → Nat
  | [], acc => acc
  | c :: cs, acc =>
    if c.isDigit then readDigits cs (acc * 10 + (c.toNat - 48)) else acc

/-- Modelled from the spec: Variant::toInt, reading the text back as an
integer (optional sign, then digits; 0 when there is no number). -/
def toInt (v : Variant) : Int :=
  match v.data.data with
  | '-' :: cs => - (readDigits cs 0 : Int)
  | '+' :: cs => (readDigits cs 0 : Int)
  | cs => (readDigits cs 0 : Int)

/-- Modelled from the spec: Variant::toBool. -/
def toBool (v : Variant) : Bool := v.data == "1" || v.data == "true"

end Variant

/-- Modelled from the spec: EmptyVariant, the value of an absent setting and of
a dropdown without selection. -/
def EmptyVariant : Variant := ⟨""⟩

/-- Modelled from the spec: VariantList, the (label, tag) pairs of a dropdown
("label→severity-value pairs"). -/
abbrev VariantList := List (String × Variant)

/-- Modelled from the spec: VarList::push_back(list, name, tag). -/
def VarList.push_back (items : VariantList) (name : String) (tag : Variant) : VariantList :=
  items ++ [(name, tag)]

/-- Modelled from the spec: the settings store, "key-value pairs"; a key that
was never set reads as the empty value. -/
structure Settings where
  value : String → Variant

namespace Settings

/-- Modelled from the spec: Settings::setValue(key, value). -/
def setValue (s : Settings) (key : String) (v : Variant) : Settings :=
  ⟨fun k => if k = key then v else s.value k⟩

/-- Modelled from the spec: Settings::getString(key). -/
def getString (s : Settings) (key : String) : String := (s.value key).toString

/-- Modelled from the spec: Settings::getInt(key). -/
def getInt (s : Settings) (key : String) : Int := (s.value key).toInt

/-- Modelled from the spec: Settings::getBool(key). -/
def getBool (s : Settings) (key : String) : Bool := (s.value key).toBool

/-- A store in which nothing was ever set. -/
def empty : Settings := ⟨fun _ => EmptyVariant⟩

end Settings

/-- Modelled from the spec: the logging sink (Logger.cxx is not among the
sources): the buffered text and the live configuration (level, console
echo). -/
structure LoggerState where
  myLogMessages : String
  myLogLevel : Int
  myLogToConsole : Bool
deriving DecidableEq, Repr

namespace LoggerState

/-- Modelled from the spec: Logger::logMessages, "get all buffered text". -/
def logMessages (l : LoggerState) : String := l.myLogMessages

/-- Modelled from the spec: Logger::setLogParameters, "set level and echo flag
together". -/
def setLogParameters (l : LoggerState) (logLevel : Int) (logToConsole : Bool) : LoggerState :=
  { l with myLogLevel := logLevel, myLogToConsole := logToConsole }

end LoggerState

/-- Modelled from the spec: StringParser (StringParser.hxx is not among the
sources), which splits a text "into discrete lines" at line boundaries.  The
text is read one line at a time up to the next newline; `cur` holds the
characters of the line being read, latest first.  A newline ends a line (also
an empty one); text left after the last newline is a final line; nothing is
left to read after a closing newline. -/
def StringParser.readLines : List Char → List Char → List (List Char)
  | [], cur => if cur = [] then [] else [cur.reverse]
  | c :: cs, cur =>
    if c = '\n' then cur.reverse :: StringParser.readLines cs []
    else StringParser.readLines cs (c :: cur)

/-- Modelled from the spec: StringParser(text).stringList(), the lines of the
text in order. -/
def StringParser.stringList (text : String) : List String :=
  (StringParser.readLines text.data []).map String.mk

/-- Modelled from the spec: the read-only list widget (StringListWidget and
ListWidget are not among the sources): its lines, the number of rows it
shows, the index of the first line shown (scroll position) and the index of
the selected line. -/
structure StringListWidget where
  list : List String
  rows : Nat
  currentPos : Int
  selectedItem : Int
deriving DecidableEq, Repr

namespace StringListWidget

/-- Modelled from the spec: move the view so that line `item` is inside it,
keeping the view inside the list. -/
def scrollToCurrent (w : StringListWidget) (item : Int) : StringListWidget :=
  let size : Int := w.list.length
  let rows : Int := w.rows
  let pos : Int :=
    if item < w.currentPos then item
    else if item ≥ w.currentPos + rows then item - rows + 1
    else w.currentPos
  let pos : Int :=
    if pos < 0 ∨ rows > size then 0
    else if pos + rows > size then size - rows
    else pos
  { w with currentPos := pos }

/-- Modelled from the spec: StringListWidget::setList, "populate the list
widget". -/
def setList (w : StringListWidget) (l : List String) : StringListWidget :=
  { w with list := l }

/-- Modelled from the spec: ListWidget::setSelected(item), select the line at
index `item` (an index outside the list is ignored) and bring it into view. -/
def setSelected (w : StringListWidget) (item : Int) : StringListWidget :=
  if item < 0 ∨ item ≥ (w.list.length : Int) then w
  else scrollToCurrent { w with selectedItem := item } item

/-- Modelled from the spec: ListWidget::scrollToEnd, "scroll to the end". -/
def scrollToEnd (w : StringListWidget) : StringListWidget :=
  scrollToCurrent w (w.list.length : Int)

/-- The line the selection is on, if the selection is inside the list. -/
def selectedLine (w : StringListWidget) : Option String :=
  if w.selectedItem < 0 then none else w.list.get? w.selectedItem.toNat

/-- The view is scrolled to the end: it shows the last `rows` lines (all of
them when the list has no more than `rows`). -/
def atEnd (w : StringListWidget) : Prop :=
  w.currentPos = max 0 ((w.list.length : Int) - (w.rows : Int))

instance (w : StringListWidget) : Decidable w.atEnd := by
  unfold atEnd; infer_instance

end StringListWidget

/-- Modelled from the spec: the dropdown (PopUpWidget and its ContextMenu are
not among the sources): its (label, tag) entries and the index of the
selected one, -1 when nothing is selected. -/
structure PopUpWidget where
  entries : VariantList
  selectedItem : Int
deriving DecidableEq, Repr

namespace PopUpWidget

/-- Modelled from the spec: index of the first entry whose tag (severity
value) reads the same as `tag`, counting from `i`. -/
def findTag : VariantList → Variant → Nat → Option Nat
  | [], _, _ => none
  | e :: es, tag, i => if e.2.toString = tag.toString then some i else findTag es tag (i + 1)

/-- Modelled from the spec: select the entry at an index (no selection for an
index outside the entries). -/
def setSelectedIndex (w : PopUpWidget) (idx : Int) : PopUpWidget :=
  if 0 ≤ idx ∧ idx < (w.entries.length : Int) then { w with selectedItem := idx }
  else { w with selectedItem := -1 }

/-- Modelled from the spec: PopUpWidget::setSelected(tag, def), "select the
matching dropdown entry, defaulting [...] if the stored value is missing or
unrecognized".  Both arguments are tags: loadConfig passes the default as the
severity value static_cast<int>(Logger::Level::INFO), and saveConfig stores
the selected entry's tag under "loglevel"; so an entry matches when its
severity value reads the same as the argument.  An empty `tag` means
"missing". -/
def setSelected (w : PopUpWidget) (tag defaultTag : Variant) : PopUpWidget :=
  match (if tag.toString ≠ "" then findTag w.entries tag 0 else none) with
  | some i => w.setSelectedIndex i
  | none =>
    match findTag w.entries defaultTag 0 with
    | some i => w.setSelectedIndex i
    | none => w

/-- The selected entry, if any. -/
def selectedEntry (w : PopUpWidget) : Option (String × Variant) :=
  if w.selectedItem < 0 then none else w.entries.get? w.selectedItem.toNat

/-- Modelled from the spec: PopUpWidget::getSelectedName, the label of the
selected entry (empty without selection). -/
def getSelectedName (w : PopUpWidget) : String :=
  match w.selectedEntry with
  | some e => e.1
  | none => ""

/-- Modelled from the spec: PopUpWidget::getSelectedTag, "the dropdown's
currently selected severity value" (the empty value without selection). -/
def getSelectedTag (w : PopUpWidget) : Variant :=
  match w.selectedEntry with
  | some e => e.2
  | none => EmptyVariant

end PopUpWidget

/-- Modelled from the spec: the checkbox (CheckboxWidget is not among the
sources), "the checkbox's boolean state". -/
structure CheckboxWidget where
  state : Bool
deriving DecidableEq, Repr

namespace CheckboxWidget

/-- Modelled from the spec: CheckboxWidget::setState. -/
def setState (_w : CheckboxWidget) (b : Bool) : CheckboxWidget := ⟨b⟩

/-- Modelled from the spec: CheckboxWidget::getState. -/
def getState (w : CheckboxWidget) : Bool := w.state

end CheckboxWidget

/-- Modelled from the spec: the file system as saveLogFile meets it: the
content of each file, whether opening a path for writing succeeds
("writable" or not, e.g. directory missing), and the path a FilesystemNode
reports for the path it was built from ("filesystem path resolution", which
the spec leaves to the collaborator).  Two more facts of the platform decide
what a write through std::ofstream leaves in a file: how many characters the
file at a path can take before writing to it fails (`room`, none for any
number: a full disk or a size limit stops a write short), and whether a stream
opened in text mode, as the one at line 117 is, writes each newline as a
carriage return and a newline (`crlf`, as on Windows). -/
structure FileSystem where
  files : String → Option String
  canOpen : String → Bool
  nodePath : String → String
  room : String → Option Nat
  crlf : Bool

namespace FileSystem

/-- Modelled from the spec: FilesystemNode(path).getPath(). -/
def getPath (fs : FileSystem) (path : String) : String := fs.nodePath path

/-- Modelled from the spec: ofstream out(path), "open that path for writing":
on success the file exists and is empty; on failure nothing changes. -/
def openForWriting (fs : FileSystem) (path : String) : Option FileSystem :=
  if fs.canOpen path then
    some { fs with files := fun p => if p = path then some "" else fs.files p }
  else none

/-- The characters of a text with each newline written as a carriage return and
a newline. -/
def crlfText : List Char → List Char
  | [] => []
  | c :: cs => if c = '\n' then '\r' :: '\n' :: crlfText cs else c :: crlfText cs

/-- The characters a text-mode stream sends to the file for a text. -/
def streamed (fs : FileSystem) (text : String) : List Char :=
  if fs.crlf then crlfText text.data else text.data

/-- The part of a text that reaches the file at `path` when the text is written
to a newly opened stream: the streamed characters, as many as the file has room
for. -/
def accepted (fs : FileSystem) (path : String) (text : String) : String :=
  match fs.room path with
  | none => String.mk (fs.streamed text)
  | some n => String.mk ((fs.streamed text).take n)

/-- Modelled from the spec: out << text on the newly opened stream of `path`:
what the file accepts of the text is added at the end of the file.  The call
reports nothing back to saveLogFile, which does not look at the state of the
stream after writing. -/
def write (fs : FileSystem) (path : String) (text : String) : FileSystem :=
  { fs with files := fun p =>
      if p = path then some ((fs.files p).getD "" ++ fs.accepted path text)
      else fs.files p }

end FileSystem

/-- Modelled from the spec: the two command ids the dialog recognizes,
GuiObject::kOKCmd ("confirm") and GuiObject::kDefaultsCmd ("save to disk";
GuiObject.hxx is not among the sources).  They are labels of one switch, hence
different. -/
structure GuiObject where
  kOKCmd : Int
  kDefaultsCmd : Int
  distinct : kOKCmd ≠ kDefaultsCmd

/-- The sender of a command (a CommandSender*), by identity. -/
abbrev CommandSender := Nat

/-- The calls handleCommand makes, in the order it makes them. -/
inductive Call
  | saveConfig
  | saveLogFile
  | close
  | dialogHandleCommand (sender : CommandSender) (cmd data id : Int)
deriving DecidableEq, Repr

/-- Everything LoggerDialog reads or changes: the collaborators reached through
instance() and Logger::instance(), the dialog's three widgets, whether the
dialog is open, and a record of the calls handleCommand has made. -/
structure State where
  /-- The value of instance().settings(). -/
  settings : Settings
  /-- The value of Logger::instance(). -/
  logger : LoggerState
  /-- The value of instance().defaultSaveDir(). -/
  defaultSaveDir : String
  /-- The messages shown by instance().frameBuffer().showMessage, oldest first. -/
  shownMessages : List String
  /-- The file system. -/
  fs : FileSystem
  myLogInfo : StringListWidget
  myLogLevel : PopUpWidget
  myLogToConsole : CheckboxWidget
  /-- Open (true) or Closed (false). -/
  isOpen : Bool
  /-- The calls made by handleCommand so far. -/
  calls : List Call

namespace LoggerDialog

/-- The dropdown entries the constructor builds (LoggerDialog.cxx, lines 59-62). -/
def items : VariantList :=
  let items : VariantList := []
  let items := VarList.push_back items "None" (Variant.ofInt Logger.Level.ERR.toInt)
  let items := VarList.push_back items "Basic" (Variant.ofInt Logger.Level.INFO.toInt)
  let items := VarList.push_back items "Verbose" (Variant.ofInt Logger.Level.DEBUG.toInt)
  items

/-- LoggerDialog::LoggerDialog, as far as the state goes: an empty list widget
showing `rows` lines, the dropdown with its three entries and no selection, an
unchecked checkbox; the dialog is open.  (Sizes and positions are left out.) -/
def create (settings : Settings) (logger : LoggerState) (defaultSaveDir : String)
    (fs : FileSystem) (rows : Nat) : State :=
  { settings := settings
    logger := logger
    defaultSaveDir := defaultSaveDir
    shownMessages := []
    fs := fs
    myLogInfo := { list := [], rows := rows, currentPos := 0, selectedItem := 0 }
    myLogLevel := { entries := items, selectedItem := -1 }
    myLogToConsole := { state := false }
    isOpen := true
    calls := [] }

/-- LoggerDialog::loadConfig (LoggerDialog.cxx, lines 86-96). -/
def loadConfig (st : State) : State :=
  let parser := StringParser.stringList st.logger.logMessages
  let myLogInfo := st.myLogInfo.setList parser
  let myLogInfo := myLogInfo.setSelected 0
  let myLogInfo := myLogInfo.scrollToEnd
  let myLogLevel := st.myLogLevel.setSelected
    (Variant.ofString (st.settings.getString "loglevel"))
    (Variant.ofInt Logger.Level.INFO.toInt)
  let myLogToConsole := st.myLogToConsole.setState (st.settings.getBool "logtoconsole")
  { st with myLogInfo := myLogInfo, myLogLevel := myLogLevel, myLogToConsole := myLogToConsole }

/-- LoggerDialog::saveConfig (LoggerDialog.cxx, lines 99-108). -/
def saveConfig (st : State) : State :=
  let loglevel : Int := st.myLogLevel.getSelectedTag.toInt
  let logtoconsole : Bool := st.myLogToConsole.getState
  let settings := st.settings.setValue "loglevel" (Variant.ofInt loglevel)
  let settings := settings.setValue "logtoconsole" (Variant.ofBool logtoconsole)
  { st with
    settings := settings
    logger := st.logger.setLogParameters loglevel logtoconsole }

/-- LoggerDialog::saveLogFile (LoggerDialog.cxx, lines 111-123). -/
def saveLogFile (st : State) : State :=
  let path : String := st.defaultSaveDir ++ "stella.log"
  let node : String := st.fs.getPath path
  match st.fs.openForWriting node with
  | some out =>
    { st with
      fs := out.write node st.logger.logMessages
      shownMessages := st.shownMessages ++ ["Saving log file to " ++ path] }
  | none => st

/-- Modelled from the spec: Dialog::close, the transition to Closed. -/
def close (st : State) : State := { st with isOpen := false }

/-- Note a call in the record of calls. -/
def call (st : State) (c : Call) : State := { st with calls := st.calls ++ [c] }

/-- LoggerDialog::handleCommand (LoggerDialog.cxx, lines 126-144).  `g` gives the
two command ids; `base` is Dialog::handleCommand, the base dialog's handler
(Dialog.cxx is not among the sources), whatever it does. -/
def handleCommand (g : GuiObject)
    (base : CommandSender → Int → Int → Int → State → State)
    (st : State) (sender : CommandSender) (cmd data _id : Int) : State :=
  if cmd = g.kOKCmd then
    let st := saveConfig (call st Call.saveConfig)
    close (call st Call.close)
  else if cmd = g.kDefaultsCmd then
    saveLogFile (call st Call.saveLogFile)
  else
    base sender cmd data 0 (call st (Call.dialogHandleCommand sender cmd data 0))

end LoggerDialog

/-! ## The words of the spec, and sample inputs -/

/-- The text ends inside a line: it is not empty and its last character is not
a newline. -/
def unterminated (cs : List Char) : Bool :=
  match cs.getLast? with
  | some c => c != '\n'
  | none => false

/-- The line count of a text, in the words of the spec ("line count", "split on
line boundaries"): one line for each newline, and one more for text that
remains after the last newline. -/
def lineCount (text : String) : Nat :=
  text.data.count '\n' + (if unterminated text.data then 1 else 0)

/-- Lines written out one after the other, each closed by a newline. -/
def joinLines : List (List Char) → List Char
  | [] => []
  | l :: ls => l ++ '\n' :: joinLines ls

/-- The lines of a text, in the words of the spec ("split into discrete lines"):
none of them holds a newline, and written out one after the other, each closed
by a newline, they give the text back (with the closing newline its last line
may lack). -/
def IsLinesOf (lines : List String) (text : String) : Prop :=
  (∀ l ∈ lines, '\n' ∉ l.data)
  ∧ joinLines (lines.map String.data)
      = text.data ++ (if unterminated text.data then ['\n'] else [])

/-- The dropdown in the words of the spec: "None"→error-only, "Basic"→info,
"Verbose"→debug. -/
def specEntries : List (String × Logger.Level) :=
  [("None", Logger.Level.ERR), ("Basic", Logger.Level.INFO), ("Verbose", Logger.Level.DEBUG)]

/-- The place of a severity's entry in the dropdown the constructor builds. -/
def levelIndex : Logger.Level → Nat
  | Logger.Level.ERR => 0
  | Logger.Level.INFO => 1
  | Logger.Level.DEBUG => 2

/-- A sample file system: no file yet, /home/u/stella.log can be opened for
writing and nothing else can, a node reports the path it was given, files can
take any number of characters, and newlines are written as they are. -/
def sampleFs : FileSystem :=
  ⟨fun _ => none, fun p => p == "/home/u/stella.log", fun p => p, fun _ => none, false⟩

/-- A sample state: the dialog as constructed, over a store in which nothing is
set, a sink holding the two lines "a" and "b" (level debug, echo on), and the
save directory /home/u/. -/
def sampleState : State :=
  LoggerDialog.create Settings.empty ⟨"a\nb\n", 2, true⟩ "/home/u/" sampleFs 5

/-- The sample state after the user picked the dropdown entry at `idx` and set
the checkbox to `checked`. -/
def sampleChoice (idx : Int) (checked : Bool) : State :=
  { sampleState with
    myLogLevel := sampleState.myLogLevel.setSelectedIndex idx
    myLogToConsole := sampleState.myLogToConsole.setState checked }

/-- The sample state with the text `s` stored under "loglevel". -/
def sampleStored (s : String) : State :=
  { sampleState with settings := Settings.empty.setValue "loglevel" (Variant.ofString s) }

/-- The sample state with another save directory. -/
def sampleSaveDir (dir : String) : State :=
  { sampleState with defaultSaveDir := dir }

/-- The sample state on a platform whose text streams write a newline as a
carriage return and a newline. -/
def sampleCrlf : State :=
  { sampleState with fs := { sampleFs with crlf := true } }

/-- Sample command ids. -/
def sampleCmds : GuiObject := ⟨1330323488, 1145390657, by decide⟩

/-- A sample base handler: it closes the dialog on command 1129074515 and does
nothing else. -/
def sampleBase (_sender : CommandSender) (cmd _data _id : Int) (st : State) : State :=
  if cmd = 1129074515 then LoggerDialog.close st else st

/-! ## Lemmas on the collaborators and on the dialog -/

open LoggerDialog

theorem unterminated_append_cons (a : List Char) (c : Char) (cs : List Char) :
    unterminated (a ++ c :: cs) = unterminated (c :: cs) := by
  have h : (c :: cs).getLast? = some ((c :: cs).getLast (by simp)) :=
    List.getLast?_eq_getLast _ _
  simp [unterminated, List.getLast?_append, h]

theorem unterminated_newline_cons (cs : List Char) :
    unterminated ('\n' :: cs) = unterminated cs := by
  cases cs with
  | nil => simp [unterminated]
  | cons d ds =>
    have := unterminated_append_cons ['\n'] d ds
    simpa using this

theorem unterminated_reverse (cur : List Char) (h : '\n' ∉ cur) :
    unterminated cur.reverse = !cur.isEmpty := by
  cases cur with
  | nil => simp [unterminated]
  | cons d ds =>
    simp [unterminated]
    intro hd
    simp [hd] at h

theorem not_mem_cons_of_ne (c : Char) (cur : List Char) (hc : ¬ c = '\n')
    (h : '\n' ∉ cur) : '\n' ∉ c :: cur := by
  simp only [List.mem_cons, not_or]
  exact ⟨fun e => hc e.symm, h⟩

theorem readLines_length (cs cur : List Char) (h : '\n' ∉ cur) :
    (StringParser.readLines cs cur).length
      = cs.count '\n' + (if unterminated (cur.reverse ++ cs) then 1 else 0) := by
  induction cs generalizing cur with
  | nil =>
    simp only [StringParser.readLines, List.append_nil, List.count_nil, Nat.zero_add]
    rw [unterminated_reverse cur h]
    cases cur <;> simp
  | cons c cs ih =>
    simp only [StringParser.readLines]
    by_cases hc : c = '\n'
    · subst hc
      simp only [if_true, List.length_cons, List.count_cons_self]
      rw [ih [] (by simp), unterminated_append_cons, unterminated_newline_cons]
      simp
      omega
    · simp only [if_neg hc]
      rw [ih (c :: cur) (not_mem_cons_of_ne c cur hc h)]
      have : c ≠ '\n' := hc
      simp [List.count_cons, this]

theorem readLines_no_newline (cs cur : List Char) (h : '\n' ∉ cur) :
    ∀ l ∈ StringParser.readLines cs cur, '\n' ∉ l := by
  induction cs generalizing cur with
  | nil =>
    intro l hl
    simp only [StringParser.readLines] at hl
    split at hl
    · simp at hl
    · simp at hl; subst hl; simpa using h
  | cons c cs ih =>
    intro l hl
    simp only [StringParser.readLines] at hl
    by_cases hc : c = '\n'
    · simp only [hc, if_true, List.mem_cons] at hl
      rcases hl with hl | hl
      · subst hl; simpa using h
      · exact ih [] (by simp) l hl
    · simp only [if_neg hc] at hl
      exact ih (c :: cur) (not_mem_cons_of_ne c cur hc h) l hl

theorem readLines_join (cs cur : List Char) (h : '\n' ∉ cur) :
    joinLines (StringParser.readLines cs cur)
      = cur.reverse ++ cs ++ (if unterminated (cur.reverse ++ cs) then ['\n'] else []) := by
  induction cs generalizing cur with
  | nil =>
    simp only [StringParser.readLines, List.append_nil]
    rw [unterminated_reverse cur h]
    cases cur <;> simp [joinLines]
  | cons c cs ih =>
    simp only [StringParser.readLines]
    by_cases hc : c = '\n'
    · subst hc
      simp only [if_true, joinLines]
      rw [ih [] (by simp), unterminated_append_cons, unterminated_newline_cons]
      simp
    · simp only [if_neg hc]
      rw [ih (c :: cur) (not_mem_cons_of_ne c cur hc h)]
      simp

theorem readLines_ne_nil (c : Char) (cs cur : List Char) :
    StringParser.readLines (c :: cs) cur ≠ [] := by
  induction cs generalizing c cur with
  | nil =>
    by_cases hc : c = '\n' <;> simp [StringParser.readLines, hc]
  | cons d ds ih =>
    by_cases hc : c = '\n'
    · simp [StringParser.readLines, hc]
    · have := ih d (c :: cur)
      simpa [StringParser.readLines, hc] using this

theorem line_split_unique (x y a b : List Char) (hx : '\n' ∉ x) (hy : '\n' ∉ y)
    (h : x ++ '\n' :: a = y ++ '\n' :: b) : x = y ∧ a = b := by
  induction x generalizing y with
  | nil =>
    cases y with
    | nil => simpa using h
    | cons d ds =>
      simp only [List.nil_append, List.cons_append, List.cons.injEq] at h
      exact absurd h.1 (fun e => hy (by rw [e]; exact List.mem_cons_self _ _))
  | cons c cs ih =>
    cases y with
    | nil =>
      simp only [List.nil_append, List.cons_append, List.cons.injEq] at h
      exact absurd h.1 (fun e => hx (by rw [← e]; exact List.mem_cons_self _ _))
    | cons d ds =>
      simp only [List.cons_append, List.cons.injEq] at h
      have hcs : '\n' ∉ cs := fun m => hx (List.mem_cons_of_mem _ m)
      have hds : '\n' ∉ ds := fun m => hy (List.mem_cons_of_mem _ m)
      obtain ⟨h1, h2⟩ := ih ds hcs hds h.2
      exact ⟨by rw [h.1, h1], h2⟩

theorem joinLines_unique (a b : List (List Char)) (ha : ∀ l ∈ a, '\n' ∉ l)
    (hb : ∀ l ∈ b, '\n' ∉ l) (h : joinLines a = joinLines b) : a = b := by
  induction a generalizing b with
  | nil =>
    cases b with
    | nil => rfl
    | cons y ys => simp [joinLines] at h
  | cons x xs ih =>
    cases b with
    | nil => simp [joinLines] at h
    | cons y ys =>
      simp only [joinLines] at h
      obtain ⟨h1, h2⟩ := line_split_unique x y _ _ (ha x (by simp)) (hb y (by simp)) h
      have := ih ys (fun l hl => ha l (List.mem_cons_of_mem _ hl))
        (fun l hl => hb l (List.mem_cons_of_mem _ hl)) h2
      rw [h1, this]

theorem map_data_map_mk (ls : List (List Char)) :
    (ls.map String.mk).map String.data = ls := by
  induction ls with
  | nil => rfl
  | cons l ls ih => simp [ih]

theorem stringList_isLinesOf (text : String) :
    IsLinesOf (StringParser.stringList text) text := by
  constructor
  · intro l hl
    simp only [StringParser.stringList, List.mem_map] at hl
    obtain ⟨cs, hcs, rfl⟩ := hl
    exact readLines_no_newline text.data [] (by simp) cs hcs
  · simp only [StringParser.stringList, map_data_map_mk]
    simpa using readLines_join text.data [] (by simp)

theorem isLinesOf_unique (ls : List String) (text : String) (h : IsLinesOf ls text) :
    ls = StringParser.stringList text := by
  have h2 := stringList_isLinesOf text
  have hj : joinLines (ls.map String.data)
      = joinLines ((StringParser.stringList text).map String.data) := by
    rw [h.2, h2.2]
  have := joinLines_unique _ _ (by simpa using h.1) (by simpa using h2.1) hj
  have hinj : Function.Injective String.data := fun a b e => String.ext e
  exact List.map_injective_iff.mpr hinj this

theorem stringList_length (text : String) :
    (StringParser.stringList text).length = lineCount text := by
  simp only [StringParser.stringList, List.length_map, lineCount]
  simpa using readLines_length text.data [] (by simp)

theorem scrollToCurrent_size_atEnd (w : StringListWidget) :
    (w.scrollToCurrent (w.list.length : Int)).atEnd := by
  simp only [StringListWidget.atEnd, StringListWidget.scrollToCurrent]
  split_ifs <;> omega

theorem loadConfig_myLogInfo_list (st : State) :
    (loadConfig st).myLogInfo.list = StringParser.stringList st.logger.logMessages := by
  simp only [loadConfig, StringListWidget.scrollToEnd, StringListWidget.scrollToCurrent,
    StringListWidget.setSelected, StringListWidget.setList]
  split_ifs <;> rfl

theorem selectedEntry_mem (w : PopUpWidget) (e : String × Variant)
    (h : w.selectedEntry = some e) : e ∈ w.entries := by
  unfold PopUpWidget.selectedEntry at h
  split at h
  · simp at h
  · exact List.get?_mem h

theorem selectedEntry_of_name (w : PopUpWidget) (name : String) (lvl : Logger.Level)
    (hE : w.entries = LoggerDialog.items) (hN : (name, lvl) ∈ specEntries)
    (hS : w.getSelectedName = name) :
    w.selectedEntry = some (name, Variant.ofInt lvl.toInt) := by
  unfold PopUpWidget.getSelectedName at hS
  cases he : w.selectedEntry with
  | none =>
    rw [he] at hS
    simp only at hS
    subst hS
    revert hN
    cases lvl <;> decide
  | some e =>
    rw [he] at hS
    simp only at hS
    have hmem := selectedEntry_mem w e he
    rw [hE] at hmem
    subst hS
    obtain ⟨n, t⟩ := e
    simp only [LoggerDialog.items, VarList.push_back, List.nil_append, List.cons_append,
      List.mem_cons, Prod.mk.injEq, List.mem_singleton, List.not_mem_nil, or_false] at hmem
    simp only [specEntries, List.mem_cons, Prod.mk.injEq, List.mem_singleton,
      List.not_mem_nil, or_false] at hN
    rcases hmem with ⟨rfl, rfl⟩ | ⟨rfl, rfl⟩ | ⟨rfl, rfl⟩ <;>
      rcases hN with ⟨h1, rfl⟩ | ⟨h1, rfl⟩ | ⟨h1, rfl⟩ <;>
      first
        | rfl
        | (exact absurd h1 (by decide))

theorem findTag_none (es : VariantList) (tag : Variant) (i : Nat)
    (h : ∀ e ∈ es, e.2.toString ≠ tag.toString) : PopUpWidget.findTag es tag i = none := by
  induction es generalizing i with
  | nil => rfl
  | cons e es ih =>
    have he : ¬ e.2.toString = tag.toString := h e (List.mem_cons_self _ _)
    simp only [PopUpWidget.findTag, if_neg he]
    exact ih (i + 1) (fun x hx => h x (List.mem_cons_of_mem _ hx))

theorem setSelected_default (w : PopUpWidget) (tag : Variant)
    (hE : w.entries = LoggerDialog.items)
    (h : tag.toString = "" ∨ ∀ e ∈ LoggerDialog.items, e.2.toString ≠ tag.toString) :
    w.setSelected tag (Variant.ofInt Logger.Level.INFO.toInt)
      = { w with selectedItem := 1 } := by
  have h1 : (if tag.toString ≠ "" then PopUpWidget.findTag w.entries tag 0 else none)
      = none := by
    rcases h with h | h
    · simp [h]
    · rw [hE, findTag_none _ _ _ h]; simp
  have h2 : PopUpWidget.findTag LoggerDialog.items
      (Variant.ofInt Logger.Level.INFO.toInt) 0 = some 1 := by decide
  simp only [PopUpWidget.setSelected, h1]
  rw [hE, h2]
  simp only [PopUpWidget.setSelectedIndex, hE]
  have h3 : (LoggerDialog.items.length : Int) = 3 := by decide
  rw [h3]
  simp

theorem setSelected_found (w : PopUpWidget) (tag defaultTag : Variant) (k : Nat)
    (hne : tag.toString ≠ "") (hfind : PopUpWidget.findTag w.entries tag 0 = some k)
    (hk : k < w.entries.length) :
    w.setSelected tag defaultTag = { w with selectedItem := (k : Int) } := by
  have h1 : (if tag.toString ≠ "" then PopUpWidget.findTag w.entries tag 0 else none)
      = some k := by
    rw [if_pos hne, hfind]
  have h2 : (0 : Int) ≤ (k : Int) ∧ (k : Int) < (w.entries.length : Int) := by
    constructor <;> omega
  simp only [PopUpWidget.setSelected, h1, PopUpWidget.setSelectedIndex, if_pos h2]

theorem findTag_items (tag : Variant) (lvl : Logger.Level)
    (h : tag.toString = (Variant.ofInt lvl.toInt).toString) :
    PopUpWidget.findTag LoggerDialog.items tag 0 = some (levelIndex lvl) := by
  simp only [LoggerDialog.items, VarList.push_back, PopUpWidget.findTag, h]
  clear h
  cases lvl <;> decide

theorem setSelected_level (w : PopUpWidget) (tag : Variant) (name : String)
    (lvl : Logger.Level) (hE : w.entries = LoggerDialog.items)
    (hN : (name, lvl) ∈ specEntries)
    (h : tag.toString = (Variant.ofInt lvl.toInt).toString) :
    (w.setSelected tag (Variant.ofInt Logger.Level.INFO.toInt)).selectedEntry
      = some (name, Variant.ofInt lvl.toInt) := by
  have hne : tag.toString ≠ "" := by
    rw [h]; clear h; cases lvl <;> decide
  have hfind := findTag_items tag lvl h
  rw [← hE] at hfind
  have hk : levelIndex lvl < w.entries.length := by
    rw [hE]; cases lvl <;> decide
  rw [setSelected_found w tag _ _ hne hfind hk]
  simp only [specEntries, List.mem_cons, Prod.mk.injEq, List.mem_singleton,
    List.not_mem_nil, or_false] at hN
  simp only [PopUpWidget.selectedEntry, hE]
  clear h hne hfind hk
  rcases hN with ⟨rfl, rfl⟩ | ⟨rfl, rfl⟩ | ⟨rfl, rfl⟩ <;> decide

theorem toInt_ofInt_level (lvl : Logger.Level) :
    (Variant.ofInt lvl.toInt).toInt = lvl.toInt := by
  cases lvl <;> decide

theorem toBool_ofBool (b : Bool) : (Variant.ofBool b).toBool = b := by
  cases b <;> decide

theorem saveConfig_settings (st : State) :
    (saveConfig st).settings.value "loglevel"
        = Variant.ofInt st.myLogLevel.getSelectedTag.toInt
    ∧ (saveConfig st).settings.value "logtoconsole"
        = Variant.ofBool st.myLogToConsole.getState := by
  have hkey : ("loglevel" = "logtoconsole") = False := by decide
  constructor
  · simp only [saveConfig, Settings.setValue, hkey, if_false, if_true]
  · simp only [saveConfig, Settings.setValue, if_true]

theorem getSelectedTag_of_name (w : PopUpWidget) (name : String) (lvl : Logger.Level)
    (hE : w.entries = LoggerDialog.items) (hN : (name, lvl) ∈ specEntries)
    (hS : w.getSelectedName = name) :
    w.getSelectedTag.toInt = lvl.toInt := by
  simp only [PopUpWidget.getSelectedTag, selectedEntry_of_name w name lvl hE hN hS]
  exact toInt_ofInt_level lvl

theorem loadConfig_myLogLevel (st : State) :
    (loadConfig st).myLogLevel = st.myLogLevel.setSelected
      (Variant.ofString (st.settings.getString "loglevel"))
      (Variant.ofInt Logger.Level.INFO.toInt) := rfl

theorem loadConfig_myLogInfo (st : State) :
    (loadConfig st).myLogInfo
      = (((st.myLogInfo.setList (StringParser.stringList st.logger.logMessages)).setSelected
          0).scrollToEnd) := rfl

theorem stringList_ne_nil (text : String) (h : text ≠ "") :
    StringParser.stringList text ≠ [] := by
  obtain ⟨cs⟩ := text
  cases cs with
  | nil => exact absurd rfl h
  | cons c cs =>
    simp only [StringParser.stringList, ne_eq, List.map_eq_nil_iff]
    exact readLines_ne_nil c cs []

theorem saveLogFile_frame (st : State) :
    (saveLogFile st).settings = st.settings
    ∧ (saveLogFile st).logger = st.logger
    ∧ (saveLogFile st).myLogInfo = st.myLogInfo
    ∧ (saveLogFile st).myLogLevel = st.myLogLevel
    ∧ (saveLogFile st).myLogToConsole = st.myLogToConsole
    ∧ (saveLogFile st).isOpen = st.isOpen
    ∧ (saveLogFile st).calls = st.calls := by
  simp only [saveLogFile]
  split <;> exact ⟨rfl, rfl, rfl, rfl, rfl, rfl, rfl⟩

theorem saveLogFile_of_open (st : State)
    (hopen : st.fs.canOpen (st.fs.getPath (st.defaultSaveDir ++ "stella.log")) = true) :
    (saveLogFile st).fs.files (st.fs.getPath (st.defaultSaveDir ++ "stella.log"))
      = some (st.fs.accepted (st.fs.getPath (st.defaultSaveDir ++ "stella.log"))
          st.logger.logMessages)
    ∧ (∀ p : String, p ≠ st.fs.getPath (st.defaultSaveDir ++ "stella.log") →
        (saveLogFile st).fs.files p = st.fs.files p)
    ∧ (saveLogFile st).shownMessages
        = st.shownMessages ++ ["Saving log file to " ++ (st.defaultSaveDir ++ "stella.log")] := by
  have h : saveLogFile st =
      { st with
        fs := FileSystem.write
          { st.fs with files := fun p =>
              if p = st.fs.getPath (st.defaultSaveDir ++ "stella.log") then some ""
              else st.fs.files p }
          (st.fs.getPath (st.defaultSaveDir ++ "stella.log")) st.logger.logMessages
        shownMessages := st.shownMessages
          ++ ["Saving log file to " ++ (st.defaultSaveDir ++ "stella.log")] } := by
    simp only [saveLogFile, FileSystem.openForWriting, hopen, if_true]
  rw [h]
  refine ⟨?_, ?_, rfl⟩
  · simp [FileSystem.write, FileSystem.accepted, FileSystem.streamed]
  · intro p hp
    simp [FileSystem.write, hp]

/-! ## The claims -/

/-- C1: for every dropdown selection (None, Basic or Verbose) and every checkbox
state, after saveConfig the settings store holds loglevel equal to the selected
entry's severity value and logtoconsole equal to the checkbox state, and the
live configuration of the logging sink (level, console echo) holds the same two
values. -/
theorem saveConfig_store_and_sink (st : State) (name : String) (lvl : Logger.Level)
    (b : Bool)
    (hE : st.myLogLevel.entries = LoggerDialog.items) (hN : (name, lvl) ∈ specEntries)
    (hS : st.myLogLevel.getSelectedName = name) (hB : st.myLogToConsole.getState = b) :
    (saveConfig st).settings.value "loglevel" = Variant.ofInt lvl.toInt
    ∧ (saveConfig st).settings.getInt "loglevel" = lvl.toInt
    ∧ (saveConfig st).settings.value "logtoconsole" = Variant.ofBool b
    ∧ (saveConfig st).settings.getBool "logtoconsole" = b
    ∧ (saveConfig st).logger.myLogLevel = lvl.toInt
    ∧ (saveConfig st).logger.myLogToConsole = b := by
  have htag := getSelectedTag_of_name st.myLogLevel name lvl hE hN hS
  obtain ⟨h1, h2⟩ := saveConfig_settings st
  rw [htag] at h1
  rw [hB] at h2
  refine ⟨h1, ?_, h2, ?_, ?_, ?_⟩
  · simp only [Settings.getInt, h1]
    exact toInt_ofInt_level lvl
  · simp only [Settings.getBool, h2]
    exact toBool_ofBool b
  · simp only [saveConfig, LoggerState.setLogParameters, htag]
  · simp only [saveConfig, LoggerState.setLogParameters, hB]

/-- The case of the sample dialog with "None" selected and the checkbox unchecked:
store and sink both end with the error level and no echo. -/
theorem saveConfig_store_and_sink_witness :
    (sampleChoice 0 false).myLogLevel.getSelectedName = "None"
    ∧ (sampleChoice 0 false).myLogToConsole.getState = false
    ∧ (saveConfig (sampleChoice 0 false)).settings.value "loglevel"
        = Variant.ofInt Logger.Level.ERR.toInt
    ∧ (saveConfig (sampleChoice 0 false)).settings.getInt "loglevel"
        = Logger.Level.ERR.toInt
    ∧ (saveConfig (sampleChoice 0 false)).settings.value "logtoconsole"
        = Variant.ofBool false
    ∧ (saveConfig (sampleChoice 0 false)).settings.getBool "logtoconsole" = false
    ∧ (saveConfig (sampleChoice 0 false)).logger.myLogLevel = Logger.Level.ERR.toInt
    ∧ (saveConfig (sampleChoice 0 false)).logger.myLogToConsole = false :=
  ⟨by decide, by decide,
    saveConfig_store_and_sink (sampleChoice 0 false) "None" Logger.Level.ERR false
      rfl (by decide) (by decide) (by decide)⟩

/-- C2: for every settings store whose loglevel is missing (empty) or matches
none of the three dropdown entries, loadConfig selects the entry "Basic", whose
severity value is the info level. -/
theorem loadConfig_selects_basic_by_default (st : State)
    (hE : st.myLogLevel.entries = LoggerDialog.items)
    (h : st.settings.getString "loglevel" = ""
      ∨ ∀ e ∈ LoggerDialog.items, e.2.toString ≠ st.settings.getString "loglevel") :
    (loadConfig st).myLogLevel.getSelectedName = "Basic"
    ∧ (loadConfig st).myLogLevel.getSelectedTag.toInt = Logger.Level.INFO.toInt := by
  rw [loadConfig_myLogLevel, setSelected_default st.myLogLevel
    (Variant.ofString (st.settings.getString "loglevel")) hE h]
  simp only [PopUpWidget.getSelectedName, PopUpWidget.getSelectedTag,
    PopUpWidget.selectedEntry, hE]
  decide

/-- The case of the sample dialog, whose store holds no loglevel. -/
theorem loadConfig_selects_basic_by_default_witness :
    (sampleState.settings.getString "loglevel" = "")
    ∧ (loadConfig sampleState).myLogLevel.getSelectedName = "Basic"
    ∧ (loadConfig sampleState).myLogLevel.getSelectedTag.toInt = 1 :=
  ⟨by decide,
   (loadConfig_selects_basic_by_default sampleState rfl (Or.inl (by decide))).1,
   (loadConfig_selects_basic_by_default sampleState rfl (Or.inl (by decide))).2⟩

/-- C3: given a settings store with the log level "Verbose" stored, that is,
holding under loglevel the debug severity value as saveConfig stores it when
"Verbose" is selected, loadConfig selects the "Verbose" entry of the dropdown,
whatever was selected before, and the severity value of that entry is
Logger::Level::DEBUG. -/
theorem loadConfig_selects_verbose_for_debug_value (st : State)
    (hE : st.myLogLevel.entries = LoggerDialog.items)
    (h : st.settings.value "loglevel" = Variant.ofInt Logger.Level.DEBUG.toInt) :
    (loadConfig st).myLogLevel.getSelectedName = "Verbose"
    ∧ (loadConfig st).myLogLevel.getSelectedTag.toInt = Logger.Level.DEBUG.toInt := by
  have h' : (Variant.ofString (st.settings.getString "loglevel")).toString
      = (Variant.ofInt Logger.Level.DEBUG.toInt).toString := by
    simp only [Settings.getString, h]
    rfl
  have hsel := setSelected_level st.myLogLevel
    (Variant.ofString (st.settings.getString "loglevel")) "Verbose" Logger.Level.DEBUG
    hE (by decide) h'
  rw [loadConfig_myLogLevel]
  simp only [PopUpWidget.getSelectedName, PopUpWidget.getSelectedTag, hsel]
  exact ⟨trivial, toInt_ofInt_level Logger.Level.DEBUG⟩

/-- The case of a newly constructed dialog, its dropdown without selection, over
a store that holds under loglevel what saveConfig stores for "Verbose". -/
theorem loadConfig_selects_verbose_for_debug_value_witness :
    (sampleStored "2").settings.value "loglevel"
        = (saveConfig (sampleChoice 2 false)).settings.value "loglevel"
    ∧ (sampleStored "2").myLogLevel.selectedItem = -1
    ∧ (sampleStored "2").myLogLevel.getSelectedName = ""
    ∧ (loadConfig (sampleStored "2")).myLogLevel.getSelectedName = "Verbose"
    ∧ (loadConfig (sampleStored "2")).myLogLevel.getSelectedTag.toInt = 2 :=
  ⟨by decide, by decide, by decide,
    loadConfig_selects_verbose_for_debug_value (sampleStored "2") rfl (by decide)⟩

/-- C4: for every log text held by the sink, after loadConfig the list widget
holds exactly the lines of that text, in order: what the line splitter yields,
which is the one list of newline-free lines that spells the text; so the
number of entries is the line count of the text. -/
theorem loadConfig_list_is_lines_of_buffer (st : State) :
    (loadConfig st).myLogInfo.list = StringParser.stringList st.logger.logMessages
    ∧ IsLinesOf (loadConfig st).myLogInfo.list st.logger.logMessages
    ∧ (∀ ls : List String, IsLinesOf ls st.logger.logMessages →
        ls = (loadConfig st).myLogInfo.list)
    ∧ (loadConfig st).myLogInfo.list.length = lineCount st.logger.logMessages := by
  rw [loadConfig_myLogInfo_list]
  exact ⟨rfl, stringList_isLinesOf _, fun ls h => isLinesOf_unique ls _ h,
    stringList_length _⟩

/-- C5, as the claim states it, fails: for the buffer of the two lines "a" and
"b", after loadConfig the selected entry is "a", the first line, while the last
line is "b". -/
theorem loadConfig_selection_not_on_last_line :
    sampleState.logger.logMessages ≠ ""
    ∧ (loadConfig sampleState).myLogInfo.list = ["a", "b"]
    ∧ (loadConfig sampleState).myLogInfo.selectedLine = some "a"
    ∧ (loadConfig sampleState).myLogInfo.list.getLast? = some "b"
    ∧ (loadConfig sampleState).myLogInfo.selectedLine
        ≠ (loadConfig sampleState).myLogInfo.list.getLast? := by
  decide

/-- C5, amended: for every non-empty log buffer, after loadConfig the selected
entry of the list widget is the first line of the list (index 0), and the
scroll position is at the end. -/
theorem loadConfig_selects_first_line_scrolled_to_end (st : State)
    (h : st.logger.logMessages ≠ "") :
    (loadConfig st).myLogInfo.selectedItem = 0
    ∧ (loadConfig st).myLogInfo.selectedLine = (loadConfig st).myLogInfo.list.head?
    ∧ (loadConfig st).myLogInfo.selectedLine ≠ none
    ∧ (loadConfig st).myLogInfo.atEnd := by
  have hne := stringList_ne_nil _ h
  have hlist := loadConfig_myLogInfo_list st
  have hsel : (loadConfig st).myLogInfo.selectedItem = 0 := by
    rw [loadConfig_myLogInfo]
    have hlen :
        ¬ (0 : Int) ≥ ((StringParser.stringList st.logger.logMessages).length : Int) := by
      have : 0 < (StringParser.stringList st.logger.logMessages).length :=
        List.length_pos.mpr hne
      omega
    simp only [StringListWidget.scrollToEnd, StringListWidget.scrollToCurrent,
      StringListWidget.setSelected, StringListWidget.setList]
    rw [if_neg (by simpa using hlen)]
  refine ⟨hsel, ?_, ?_, ?_⟩
  · simp only [StringListWidget.selectedLine, hsel, hlist]
    cases StringParser.stringList st.logger.logMessages <;> simp
  · simp only [StringListWidget.selectedLine, hsel, hlist]
    cases hl : StringParser.stringList st.logger.logMessages with
    | nil => exact absurd hl hne
    | cons l ls => simp
  · rw [loadConfig_myLogInfo]
    exact scrollToCurrent_size_atEnd _

/-- The case of the sample dialog, whose sink holds two lines. -/
theorem loadConfig_selects_first_line_scrolled_to_end_witness :
    sampleState.logger.logMessages ≠ ""
    ∧ (loadConfig sampleState).myLogInfo.selectedItem = 0
    ∧ (loadConfig sampleState).myLogInfo.selectedLine
        = (loadConfig sampleState).myLogInfo.list.head?
    ∧ (loadConfig sampleState).myLogInfo.selectedLine ≠ none
    ∧ (loadConfig sampleState).myLogInfo.atEnd :=
  ⟨by decide, loadConfig_selects_first_line_scrolled_to_end sampleState (by decide)⟩

/-- C6: handleCommand with the confirm command id (kOKCmd), for every sender,
data and id, makes exactly two calls, saveConfig and then close: the dialog ends
Closed with the store and the sink as saveConfig leaves them; it calls neither
saveLogFile (files and messages are untouched) nor the base dialog's handler
(the result does not depend on it). -/
theorem handleCommand_ok_saves_then_closes (g : GuiObject)
    (base : CommandSender → Int → Int → Int → State → State)
    (st : State) (sender : CommandSender) (data id : Int) :
    handleCommand g base st sender g.kOKCmd data id
      = close (call (saveConfig (call st Call.saveConfig)) Call.close)
    ∧ (handleCommand g base st sender g.kOKCmd data id).calls
        = st.calls ++ [Call.saveConfig, Call.close]
    ∧ (handleCommand g base st sender g.kOKCmd data id).isOpen = false
    ∧ (handleCommand g base st sender g.kOKCmd data id).settings = (saveConfig st).settings
    ∧ (handleCommand g base st sender g.kOKCmd data id).logger = (saveConfig st).logger
    ∧ (handleCommand g base st sender g.kOKCmd data id).fs = st.fs
    ∧ (handleCommand g base st sender g.kOKCmd data id).shownMessages
        = st.shownMessages := by
  have h : handleCommand g base st sender g.kOKCmd data id
      = close (call (saveConfig (call st Call.saveConfig)) Call.close) := by
    simp only [handleCommand, if_true]
  rw [h]
  refine ⟨rfl, ?_, rfl, rfl, rfl, rfl, rfl⟩
  simp [close, call, saveConfig]

/-- C7: handleCommand with the save-to-disk command id (kDefaultsCmd), for every
sender, data and id, makes exactly one call, saveLogFile; the dialog stays Open
if it was, saveConfig is not called, and the settings store and the live
configuration of the sink are unchanged. -/
theorem handleCommand_defaults_saves_log_only (g : GuiObject)
    (base : CommandSender → Int → Int → Int → State → State)
    (st : State) (sender : CommandSender) (data id : Int) :
    handleCommand g base st sender g.kDefaultsCmd data id
      = saveLogFile (call st Call.saveLogFile)
    ∧ (handleCommand g base st sender g.kDefaultsCmd data id).calls
        = st.calls ++ [Call.saveLogFile]
    ∧ (handleCommand g base st sender g.kDefaultsCmd data id).isOpen = st.isOpen
    ∧ (handleCommand g base st sender g.kDefaultsCmd data id).settings = st.settings
    ∧ (handleCommand g base st sender g.kDefaultsCmd data id).logger = st.logger := by
  have hne : ¬ g.kDefaultsCmd = g.kOKCmd := fun e => g.distinct e.symm
  have h : handleCommand g base st sender g.kDefaultsCmd data id
      = saveLogFile (call st Call.saveLogFile) := by
    simp only [handleCommand, if_neg hne, if_true]
  rw [h]
  obtain ⟨h1, h2, -, -, -, h6, h7⟩ := saveLogFile_frame (call st Call.saveLogFile)
  exact ⟨rfl, h7, h6, h1, h2⟩

/-- C8: for every command id other than confirm (kOKCmd) and save-to-disk
(kDefaultsCmd), handleCommand makes exactly one call, to the base dialog's
handler, with the sender, the command id and the data parameter as received and
0 as the id parameter; it calls neither saveConfig nor saveLogFile nor close:
the base handler receives the state as handleCommand found it. -/
theorem handleCommand_other_forwards_to_base (g : GuiObject)
    (base : CommandSender → Int → Int → Int → State → State)
    (st : State) (sender : CommandSender) (cmd data id : Int)
    (hOK : cmd ≠ g.kOKCmd) (hDef : cmd ≠ g.kDefaultsCmd) :
    handleCommand g base st sender cmd data id
      = base sender cmd data 0 (call st (Call.dialogHandleCommand sender cmd data 0))
    ∧ (call st (Call.dialogHandleCommand sender cmd data 0)).calls
        = st.calls ++ [Call.dialogHandleCommand sender cmd data 0]
    ∧ (call st (Call.dialogHandleCommand sender cmd data 0)).settings = st.settings
    ∧ (call st (Call.dialogHandleCommand sender cmd data 0)).logger = st.logger
    ∧ (call st (Call.dialogHandleCommand sender cmd data 0)).fs = st.fs
    ∧ (call st (Call.dialogHandleCommand sender cmd data 0)).shownMessages
        = st.shownMessages
    ∧ (call st (Call.dialogHandleCommand sender cmd data 0)).isOpen = st.isOpen := by
  refine ⟨?_, rfl, rfl, rfl, rfl, rfl, rfl⟩
  simp only [handleCommand, if_neg hOK, if_neg hDef]

/-- The case of command 7 from sender 3 with data 11 and id 13, on the sample
dialog. -/
theorem handleCommand_other_forwards_to_base_witness :
    (7 : Int) ≠ sampleCmds.kOKCmd ∧ (7 : Int) ≠ sampleCmds.kDefaultsCmd
    ∧ handleCommand sampleCmds sampleBase sampleState 3 7 11 13
        = sampleBase 3 7 11 0 (call sampleState (Call.dialogHandleCommand 3 7 11 0))
    ∧ (handleCommand sampleCmds sampleBase sampleState 3 7 11 13).calls
        = [Call.dialogHandleCommand 3 7 11 0] :=
  ⟨by decide, by decide,
    (handleCommand_other_forwards_to_base sampleCmds sampleBase sampleState 3 7 11 13
      (by decide) (by decide)).1,
    by decide⟩

/-- C10: when opening the target path for writing fails, saveLogFile returns the
state exactly as it was: no message is shown, nothing is written, and the
settings store, the sink and the dialog are unchanged (the call has no error
outcome). -/
theorem saveLogFile_open_failure_is_silent (st : State)
    (hfail : st.fs.canOpen (st.fs.getPath (st.defaultSaveDir ++ "stella.log")) = false) :
    saveLogFile st = st := by
  simp [saveLogFile, FileSystem.openForWriting, hfail]

/-- The case of a save directory in which no file can be opened. -/
theorem saveLogFile_open_failure_is_silent_witness :
    (sampleSaveDir "/missing/").fs.canOpen
        ((sampleSaveDir "/missing/").fs.getPath
          ((sampleSaveDir "/missing/").defaultSaveDir ++ "stella.log")) = false
    ∧ saveLogFile (sampleSaveDir "/missing/") = sampleSaveDir "/missing/" :=
  ⟨by decide, saveLogFile_open_failure_is_silent (sampleSaveDir "/missing/") (by decide)⟩

/-! ## Further properties -/

/-- After saveConfig, loadConfig shows what was saved: for each of the three
dropdown entries and both checkbox states, loadConfig on the state saveConfig
leaves selects the same entry and sets the checkbox to the same state. -/
theorem loadConfig_after_saveConfig (st : State) (name : String) (lvl : Logger.Level)
    (b : Bool) (hE : st.myLogLevel.entries = LoggerDialog.items)
    (hN : (name, lvl) ∈ specEntries)
    (hS : st.myLogLevel.getSelectedName = name) (hB : st.myLogToConsole.getState = b) :
    (loadConfig (saveConfig st)).myLogLevel.getSelectedName = name
    ∧ (loadConfig (saveConfig st)).myLogLevel.getSelectedTag.toInt = lvl.toInt
    ∧ (loadConfig (saveConfig st)).myLogToConsole.getState = b := by
  obtain ⟨h1, h2⟩ := saveConfig_settings st
  rw [getSelectedTag_of_name st.myLogLevel name lvl hE hN hS] at h1
  rw [hB] at h2
  have hsel := setSelected_level (saveConfig st).myLogLevel
    (Variant.ofString ((saveConfig st).settings.getString "loglevel")) name lvl hE hN
    (by simp only [Settings.getString, h1]; rfl)
  refine ⟨?_, ?_, ?_⟩
  · rw [loadConfig_myLogLevel]
    simp only [PopUpWidget.getSelectedName, hsel]
  · rw [loadConfig_myLogLevel]
    simp only [PopUpWidget.getSelectedTag, hsel]
    exact toInt_ofInt_level lvl
  · simp only [loadConfig, CheckboxWidget.setState, CheckboxWidget.getState,
      Settings.getBool, h2]
    exact toBool_ofBool b

/-- The case of the sample dialog with "Verbose" selected and the checkbox checked. -/
theorem loadConfig_after_saveConfig_witness :
    (sampleChoice 2 true).myLogLevel.getSelectedName = "Verbose"
    ∧ (loadConfig (saveConfig (sampleChoice 2 true))).myLogLevel.getSelectedName = "Verbose"
    ∧ (loadConfig (saveConfig (sampleChoice 2 true))).myLogLevel.getSelectedTag.toInt
        = Logger.Level.DEBUG.toInt
    ∧ (loadConfig (saveConfig (sampleChoice 2 true))).myLogToConsole.getState = true :=
  ⟨by decide,
    loadConfig_after_saveConfig (sampleChoice 2 true) "Verbose" Logger.Level.DEBUG true
      rfl (by decide) (by decide) (by decide)⟩

/-- The call loadConfig changes widgets only: the settings store, the sink, the
files, the messages shown, the open flag and the record of calls stay as they
were; and the checkbox shows the stored logtoconsole value. -/
theorem loadConfig_changes_widgets_only (st : State) :
    (loadConfig st).settings = st.settings
    ∧ (loadConfig st).logger = st.logger
    ∧ (loadConfig st).fs = st.fs
    ∧ (loadConfig st).shownMessages = st.shownMessages
    ∧ (loadConfig st).isOpen = st.isOpen
    ∧ (loadConfig st).calls = st.calls
    ∧ (loadConfig st).myLogToConsole.getState = st.settings.getBool "logtoconsole" :=
  ⟨rfl, rfl, rfl, rfl, rfl, rfl, rfl⟩

/-- The call saveConfig changes the store and the sink only, and of the sink
only its configuration: the widgets, the open flag, the files, the messages
shown and the buffered log text stay as they were, and so does every setting
other than loglevel and logtoconsole. -/
theorem saveConfig_changes_store_and_sink_only (st : State) :
    (saveConfig st).myLogInfo = st.myLogInfo
    ∧ (saveConfig st).myLogLevel = st.myLogLevel
    ∧ (saveConfig st).myLogToConsole = st.myLogToConsole
    ∧ (saveConfig st).isOpen = st.isOpen
    ∧ (saveConfig st).fs = st.fs
    ∧ (saveConfig st).shownMessages = st.shownMessages
    ∧ (saveConfig st).logger.logMessages = st.logger.logMessages
    ∧ (∀ key : String, key ≠ "loglevel" → key ≠ "logtoconsole" →
        (saveConfig st).settings.value key = st.settings.value key) := by
  refine ⟨rfl, rfl, rfl, rfl, rfl, rfl, rfl, ?_⟩
  intro key h1 h2
  simp only [saveConfig, Settings.setValue, if_neg h1, if_neg h2]

/-- Whenever the open succeeds, saveLogFile shows its message, and the file
holds the leading part of the text as the stream sends it that the file had
room for: saveLogFile shows the message whether or not the whole text reached
the file. -/
theorem saveLogFile_reports_after_open (st : State)
    (hopen : st.fs.canOpen (st.fs.getPath (st.defaultSaveDir ++ "stella.log")) = true) :
    (saveLogFile st).shownMessages
        = st.shownMessages ++ ["Saving log file to " ++ (st.defaultSaveDir ++ "stella.log")]
    ∧ ∃ content : String,
        (saveLogFile st).fs.files (st.fs.getPath (st.defaultSaveDir ++ "stella.log"))
          = some content
        ∧ content.data <+: st.fs.streamed st.logger.logMessages := by
  obtain ⟨h1, -, h3⟩ := saveLogFile_of_open st hopen
  refine ⟨h3, _, h1, ?_⟩
  unfold FileSystem.accepted
  cases st.fs.room (st.fs.getPath (st.defaultSaveDir ++ "stella.log")) with
  | none => exact List.prefix_refl _
  | some n => exact List.take_prefix n _

/-- The case of a platform that writes a newline as a carriage return and a
newline: the file ends with six characters for the four of the log text, and
the message is shown. -/
theorem saveLogFile_reports_after_open_witness :
    sampleCrlf.fs.canOpen
        (sampleCrlf.fs.getPath (sampleCrlf.defaultSaveDir ++ "stella.log")) = true
    ∧ (saveLogFile sampleCrlf).fs.files "/home/u/stella.log" = some "a\r\nb\r\n"
    ∧ (saveLogFile sampleCrlf).shownMessages = ["Saving log file to /home/u/stella.log"] :=
  ⟨by decide, by decide, (saveLogFile_reports_after_open sampleCrlf (by decide)).1⟩

end Stella
